import Mathlib

/-!
# Verification of the AndreOS single-file web application (`careerHub.js`)

Shallow embedding of the server's JSON-file-backed store, its REST
handlers, and the client-side link-editing selection state machine.
JavaScript values carried in request/response bodies are modelled by a
`Json` inductive; machine time (`Date.now()`, `new Date().toISOString()`)
is passed to handlers explicitly.
-/

set_option autoImplicit false

namespace AndreOS

/-- JSON values as parsed by `express.json()` / produced by `res.json`.
Numbers are modelled as integers (no claim depends on non-integral
numbers). Objects are ordered key/value lists, as JavaScript objects are. -/
inductive Json where
  | null
  | bool (b : Bool)
  | num (n : Int)
  | str (s : String)
  | arr (elems : List Json)
  | obj (fields : List (String × Json))

/-- A JavaScript object: ordered association list of fields. -/
abbrev JsObj := List (String × Json)

/-- JavaScript truthiness of a value (`v ? … : …`, `v || d`). -/
def truthy : Json → Bool
  | .null => false
  | .bool b => b
  | .num n => n != 0
  | .str s => s != ""
  | .arr _ => true
  | .obj _ => true

/-- Property read `o.k` on an object: first field named `k`, `none` for
JavaScript `undefined`. -/
def objLookup (o : JsObj) (k : String) : Option Json :=
  (o.find? (fun p => p.1 == k)).map (·.2)

/-- `x || d` where `x` is a property read (absent property = `undefined`,
which is falsy). -/
def jsOr (v : Option Json) (d : Json) : Json :=
  match v with
  | some j => if truthy j then j else d
  | none => d

/-- Replace the first element satisfying `p` by its image under `f`.
Models finding an element with `Array.prototype.find` and mutating the
returned reference in place. -/
def updateFirst {α : Type} (p : α → Bool) (f : α → α) : List α → List α
  | [] => []
  | x :: xs => if p x then f x :: xs else x :: updateFirst p f xs

/-- `findIndex` + `splice(index, 1)`: remove the first element satisfying
`p`, returning it together with the remaining list; `none` when
`findIndex` returns `-1`. -/
def spliceFirst {α : Type} (p : α → Bool) : List α → Option (α × List α)
  | [] => none
  | x :: xs =>
    if p x then some (x, xs)
    else (spliceFirst p xs).map (fun r => (r.1, x :: r.2))

/-- One entry of a document's `versions` array:
`{ content, timestamp: new Date().toISOString() }`. -/
structure Version where
  content : Json
  timestamp : String

/-- A document record as created by `POST /api/documents`. -/
structure Document where
  docId : String
  title : Json
  versions : List Version
  currentVersion : Nat

/-- The top-level store: `{ graphData, documents, issues }`. `graphData`
is whatever JSON the last `POST /api/graph` supplied (no validation);
issues are plain objects because `PUT` merges arbitrary fields into them. -/
structure Store where
  graphData : Json
  documents : List Document
  issues : List JsObj

/-- The initial store value (`let store = { graphData: {nodes:[],links:[]},
documents: [], issues: [] }`). -/
def emptyStore : Store :=
  { graphData := Json.obj [("nodes", Json.arr []), ("links", Json.arr [])]
    documents := []
    issues := [] }

/-- An HTTP response: status code (200 by default for `res.json`, 404 via
`res.status(404)`) and JSON body. -/
structure Response where
  status : Nat
  body : Json

/-- Result of a handler that may mutate the store: the store afterwards,
whether `saveData()` ran, and the response. -/
structure HandlerResult where
  store : Store
  saved : Bool
  response : Response

/-- JSON encoding of a version record. -/
def versionToJson (v : Version) : Json :=
  Json.obj [("content", v.content), ("timestamp", Json.str v.timestamp)]

/-- JSON encoding of a document record. -/
def documentToJson (d : Document) : Json :=
  Json.obj [("docId", Json.str d.docId), ("title", d.title),
    ("versions", Json.arr (d.versions.map versionToJson)),
    ("currentVersion", Json.num d.currentVersion)]

/-! ## Graph API -/

/-- `GET /api/graph`: `res.json(store.graphData)`. -/
def getGraph (s : Store) : Response :=
  ⟨200, s.graphData⟩

/-- `POST /api/graph`: `store.graphData = req.body; saveData();
res.json({ success: true, graphData: store.graphData })`. -/
def postGraph (s : Store) (body : Json) : HandlerResult :=
  let s' := { s with graphData := body }
  ⟨s', true, ⟨200, Json.obj [("success", Json.bool true), ("graphData", s'.graphData)]⟩⟩

/-! ## Document API -/

/-- `store.documents.find(d => d.docId === req.params.docId)`. -/
def findDoc (docs : List Document) (docId : String) : Option Document :=
  docs.find? (fun d => d.docId == docId)

/-- `GET /api/documents`. -/
def getDocuments (s : Store) : Response :=
  ⟨200, Json.arr (s.documents.map documentToJson)⟩

/-- `GET /api/documents/:docId`. -/
def getDocument (s : Store) (docId : String) : Response :=
  match findDoc s.documents docId with
  | none => ⟨404, Json.obj [("error", Json.str "Document not found")]⟩
  | some d => ⟨200, documentToJson d⟩

/-- The document built by `POST /api/documents` at epoch-milliseconds
`now` with ISO timestamp `iso`. -/
def newDocument (title content : Json) (now : Nat) (iso : String) : Document :=
  { docId := "doc_" ++ toString now
    title := title
    versions := [⟨content, iso⟩]
    currentVersion := 0 }

/-- `POST /api/documents` with body `{title, content}`; `now` is
`Date.now()` and `iso` is `new Date().toISOString()`. -/
def createDocument (s : Store) (title content : Json) (now : Nat) (iso : String) :
    HandlerResult :=
  let d := newDocument title content now iso
  ⟨{ s with documents := s.documents ++ [d] }, true, ⟨200, documentToJson d⟩⟩

/-- The in-place mutation a commit performs on the found document:
`doc.versions.push({content, timestamp}); doc.currentVersion =
doc.versions.length - 1`. -/
def commitVersion (content : Json) (iso : String) (d : Document) : Document :=
  { d with versions := d.versions ++ [⟨content, iso⟩], currentVersion := d.versions.length }

/-- `POST /api/documents/:docId/commit` with body `{content}`. -/
def commitDocument (s : Store) (docId : String) (content : Json) (iso : String) :
    HandlerResult :=
  match findDoc s.documents docId with
  | none => ⟨s, false, ⟨404, Json.obj [("error", Json.str "Document not found")]⟩⟩
  | some d =>
    ⟨{ s with documents := updateFirst (fun x => x.docId == docId) (commitVersion content iso) s.documents },
      true, ⟨200, documentToJson (commitVersion content iso d)⟩⟩

/-- Executing the commit handler `n` times against the same `docId`;
`c i` and `ts i` are the body content and ISO timestamp of the
`(i+1)`-st commit. -/
def commitTimes (s : Store) (docId : String) (c : Nat → Json) (ts : Nat → String) :
    Nat → Store
  | 0 => s
  | n + 1 => (commitDocument (commitTimes s docId c ts n) docId (c n) (ts n)).store

/-! ## Issue API -/

/-- `i.issueId === issueId` where `issueId` is the (string) URL
parameter: strict equality holds only when the stored field is the same
string; a missing field (`undefined`) or value of another type never
matches. -/
def issueIdMatches (id : String) (i : JsObj) : Bool :=
  match objLookup i "issueId" with
  | some (Json.str s) => s == id
  | _ => false

/-- `GET /api/issues`. -/
def getIssues (s : Store) : Response :=
  ⟨200, Json.arr (s.issues.map Json.obj)⟩

/-- The issue built by `POST /api/issues` at epoch-milliseconds `now`:
`{ issueId, title: title || 'Untitled', description: description || '',
status: status || 'todo' }`. -/
def newIssue (body : JsObj) (now : Nat) : JsObj :=
  [("issueId", Json.str ("issue_" ++ toString now)),
   ("title", jsOr (objLookup body "title") (Json.str "Untitled")),
   ("description", jsOr (objLookup body "description") (Json.str "")),
   ("status", jsOr (objLookup body "status") (Json.str "todo"))]

/-- `POST /api/issues`. -/
def createIssue (s : Store) (body : JsObj) (now : Nat) : HandlerResult :=
  let i := newIssue body now
  ⟨{ s with issues := s.issues ++ [i] }, true, ⟨200, Json.obj i⟩⟩

/-- `target[k] = v` on a plain object: overwrite the field in place if
present, else append it (JavaScript insertion order). -/
def objSet : JsObj → String → Json → JsObj
  | [], k, v => [(k, v)]
  | (k₀, v₀) :: rest, k, v =>
    if k₀ == k then (k, v) :: rest else (k₀, v₀) :: objSet rest k v

/-- `Object.assign(target, body)`: copy every field of `body` into
`target`, in order. -/
def objAssign (target body : JsObj) : JsObj :=
  body.foldl (fun acc p => objSet acc p.1 p.2) target

/-- `PUT /api/issues/:issueId`. -/
def putIssue (s : Store) (id : String) (body : JsObj) : HandlerResult :=
  match s.issues.find? (issueIdMatches id) with
  | none => ⟨s, false, ⟨404, Json.obj [("error", Json.str "Issue not found")]⟩⟩
  | some i =>
    ⟨{ s with issues := updateFirst (issueIdMatches id) (fun j => objAssign j body) s.issues },
      true, ⟨200, Json.obj (objAssign i body)⟩⟩

/-- `DELETE /api/issues/:issueId`. -/
def deleteIssue (s : Store) (id : String) : HandlerResult :=
  match spliceFirst (issueIdMatches id) s.issues with
  | none => ⟨s, false, ⟨404, Json.obj [("error", Json.str "Issue not found")]⟩⟩
  | some (removed, rest) =>
    ⟨{ s with issues := rest }, true,
      ⟨200, Json.obj [("success", Json.bool true), ("removed", Json.arr [Json.obj removed])]⟩⟩

/-! ## Store loading at startup -/

/-- The state of `careerData.json` at process start, as the load code
distinguishes it: absent (`fs.existsSync` false), present but
`JSON.parse` throws, or present and parsing to `v`. -/
inductive FileState where
  | absent
  | malformed
  | parsed (v : Json)

/-- The default store, as JSON, used when nothing is loaded. -/
def defaultStoreJson : Json :=
  Json.obj [("graphData", Json.obj [("nodes", Json.arr []), ("links", Json.arr [])]),
    ("documents", Json.arr []), ("issues", Json.arr [])]

/-- Startup load: the resulting in-memory store (as JSON) together with
the console messages emitted, in order. -/
def load : FileState → Json × List String
  | .absent => (defaultStoreJson, [])
  | .malformed =>
    (defaultStoreJson, ["Error reading careerData.json, starting with empty data:"])
  | .parsed v => (v, ["Loaded existing data from careerData.json"])

/-! ## Client graph view: link-editing selection state machine -/

/-- A rendered graph node; the click handler only inspects `id`. -/
structure GNode where
  id : String
  name : String

/-- An in-memory link; endpoints are node object references, modelled by
the referenced node's `id` (the handler only reads `source.id` /
`target.id`). -/
structure GLink where
  source : String
  target : String

/-- Client-side state the click handler touches: `selectedNode` and
`graph.links`. -/
structure SelState where
  selectedNode : Option GNode
  links : List GLink

/-- The existence test for a link between the selected node `a` and the
clicked node `b`, in either direction. -/
def linkBetween (a b : String) (l : GLink) : Bool :=
  (l.source == a && l.target == b) || (l.source == b && l.target == a)

/-- The node `click` handler of `updateGraph`: shift-click selects,
deselects, or toggles the link between the selected and clicked nodes;
plain clicks do nothing. -/
def clickNode (shiftKey : Bool) (d : GNode) (st : SelState) : SelState :=
  if shiftKey then
    match st.selectedNode with
    | none => { st with selectedNode := some d }
    | some sel =>
      if sel.id == d.id then { st with selectedNode := none }
      else
        match st.links.find? (linkBetween sel.id d.id) with
        | some _ => ⟨none, st.links.eraseP (linkBetween sel.id d.id)⟩
        | none => ⟨none, st.links ++ [⟨sel.id, d.id⟩]⟩
  else st

/-! ## Helper lemmas on first-match list operations -/

theorem find?_eq_none_of_all {α : Type} (p : α → Bool) (l : List α)
    (h : ∀ a ∈ l, p a = false) : l.find? p = none := by
  rw [List.find?_eq_none]
  intro a ha
  simp [h a ha]

theorem find?_first {α : Type} (p : α → Bool) (pre : List α) (x : α) (post : List α)
    (hpre : ∀ a ∈ pre, p a = false) (hx : p x = true) :
    (pre ++ x :: post).find? p = some x := by
  induction pre with
  | nil => simp [List.find?, hx]
  | cons y ys ih =>
    have hy := hpre y (List.mem_cons_self y ys)
    have ih' := ih fun a ha => hpre a (List.mem_cons_of_mem y ha)
    simp [List.find?, hy, ih']

theorem updateFirst_first {α : Type} (p : α → Bool) (f : α → α)
    (pre : List α) (x : α) (post : List α)
    (hpre : ∀ a ∈ pre, p a = false) (hx : p x = true) :
    updateFirst p f (pre ++ x :: post) = pre ++ f x :: post := by
  induction pre with
  | nil => simp [updateFirst, hx]
  | cons y ys ih =>
    have hy := hpre y (List.mem_cons_self y ys)
    have ih' := ih fun a ha => hpre a (List.mem_cons_of_mem y ha)
    simp [updateFirst, hy, ih']

theorem updateFirst_eq_of_all {α : Type} (p : α → Bool) (f : α → α) (l : List α)
    (h : ∀ a ∈ l, p a = false) : updateFirst p f l = l := by
  induction l with
  | nil => rfl
  | cons x xs ih =>
    have hx := h x (List.mem_cons_self x xs)
    have ih' := ih fun a ha => h a (List.mem_cons_of_mem x ha)
    simp [updateFirst, hx, ih']

theorem spliceFirst_first {α : Type} (p : α → Bool) (pre : List α) (x : α) (post : List α)
    (hpre : ∀ a ∈ pre, p a = false) (hx : p x = true) :
    spliceFirst p (pre ++ x :: post) = some (x, pre ++ post) := by
  induction pre with
  | nil => simp [spliceFirst, hx]
  | cons y ys ih =>
    have hy := hpre y (List.mem_cons_self y ys)
    have ih' := ih fun a ha => hpre a (List.mem_cons_of_mem y ha)
    simp [spliceFirst, hy, ih']

theorem spliceFirst_eq_none_of_all {α : Type} (p : α → Bool) (l : List α)
    (h : ∀ a ∈ l, p a = false) : spliceFirst p l = none := by
  induction l with
  | nil => rfl
  | cons x xs ih =>
    have hx := h x (List.mem_cons_self x xs)
    have ih' := ih fun a ha => h a (List.mem_cons_of_mem x ha)
    simp [spliceFirst, hx, ih']

theorem eraseP_first {α : Type} (p : α → Bool) (pre : List α) (x : α) (post : List α)
    (hpre : ∀ a ∈ pre, p a = false) (hx : p x = true) :
    (pre ++ x :: post).eraseP p = pre ++ post := by
  induction pre with
  | nil => simp [List.eraseP, hx]
  | cons y ys ih =>
    have hy := hpre y (List.mem_cons_self y ys)
    have ih' := ih fun a ha => hpre a (List.mem_cons_of_mem y ha)
    simp [List.eraseP, hy, ih']

/-! ## Helper lemmas on object field assignment -/

theorem objAssign_cons (o : JsObj) (k : String) (v : Json) (rest : JsObj) :
    objAssign o ((k, v) :: rest) = objAssign (objSet o k v) rest := rfl

theorem objLookup_objSet_self (o : JsObj) (k : String) (v : Json) :
    objLookup (objSet o k v) k = some v := by
  induction o with
  | nil => simp [objSet, objLookup, List.find?]
  | cons p rest ih =>
    obtain ⟨k₀, v₀⟩ := p
    by_cases h : k₀ = k
    · simp [objSet, h, objLookup, List.find?]
    · have hb : (k₀ == k) = false := by simp [h]
      simp [objSet, hb, objLookup, List.find?]
      simpa [objLookup] using ih

theorem objLookup_objSet_ne (o : JsObj) (k' : String) (v : Json) (k : String)
    (h : k' ≠ k) : objLookup (objSet o k' v) k = objLookup o k := by
  have hk : (k' == k) = false := by simp [h]
  induction o with
  | nil => simp [objSet, objLookup, List.find?, hk]
  | cons p rest ih =>
    obtain ⟨k₀, v₀⟩ := p
    by_cases h₀ : k₀ = k'
    · subst h₀
      have hb : (k₀ == k) = false := by simp [h]
      simp [objSet, objLookup, List.find?, hb]
    · have hb : (k₀ == k') = false := by simp [h₀]
      by_cases h₁ : k₀ = k
      · subst h₁
        simp [objSet, hb, objLookup, List.find?]
      · have hb' : (k₀ == k) = false := by simp [h₁]
        simp [objSet, hb, objLookup, List.find?, hb']
        simpa [objLookup] using ih

theorem objLookup_objAssign_not_mem (b : JsObj) (o : JsObj) (k : String)
    (h : ∀ p ∈ b, p.1 ≠ k) : objLookup (objAssign o b) k = objLookup o k := by
  induction b generalizing o with
  | nil => rfl
  | cons p rest ih =>
    obtain ⟨k₀, v₀⟩ := p
    rw [objAssign_cons]
    rw [ih (objSet o k₀ v₀) fun q hq => h q (List.mem_cons_of_mem _ hq)]
    exact objLookup_objSet_ne o k₀ v₀ k (h (k₀, v₀) (List.mem_cons_self _ _))

theorem objLookup_objAssign_mem (b : JsObj) (o : JsObj) (k : String) (v : Json)
    (hnd : (b.map Prod.fst).Nodup) (hmem : (k, v) ∈ b) :
    objLookup (objAssign o b) k = some v := by
  induction b generalizing o with
  | nil => cases hmem
  | cons p rest ih =>
    obtain ⟨k₀, v₀⟩ := p
    rw [objAssign_cons]
    rcases List.mem_cons.mp hmem with heq | hrest
    · cases heq
      have hk : ∀ q ∈ rest, q.1 ≠ k := by
        intro q hq hqk
        have : k ∈ rest.map Prod.fst := by
          exact hqk ▸ List.mem_map_of_mem Prod.fst hq
        exact (List.nodup_cons.mp hnd).1 this
      rw [objLookup_objAssign_not_mem rest (objSet o k v) k hk]
      exact objLookup_objSet_self o k v
    · exact ih (objSet o k₀ v₀) (List.nodup_cons.mp hnd).2 hrest

/-! ## Claim theorems -/

/-- C1: for every stored state and every request body `b`, `POST
/api/graph` with body `b` replaces the stored graph wholesale with `b`
(no validation or transformation), and a subsequent `GET /api/graph`
returns exactly `b` with status 200. -/
theorem graph_post_then_get_roundtrip (s : Store) (b : Json) :
    (postGraph s b).store.graphData = b ∧
    getGraph (postGraph s b).store = ⟨200, b⟩ :=
  ⟨rfl, rfl⟩

/-- C2 counterexample: already for the body `{}`, the response of `POST
/api/graph` is not the stored `GraphData` value that a subsequent `GET
/api/graph` returns — the POST wraps it as `{success, graphData}`. -/
theorem post_graph_response_is_not_stored_value :
    (postGraph emptyStore (Json.obj [])).response.body ≠
      (getGraph (postGraph emptyStore (Json.obj [])).store).body := by
  intro h
  simp [postGraph, getGraph, emptyStore] at h

/-- C2 (amended): for every request body, `POST /api/graph` responds
with status 200 and body `{success: true, graphData: g}` where `g` is
the stored value — the same value a subsequent `GET /api/graph` returns
as its entire body. -/
theorem post_graph_response_wraps_stored_value (s : Store) (b : Json) :
    (postGraph s b).response =
      ⟨200, Json.obj [("success", Json.bool true),
        ("graphData", (getGraph (postGraph s b).store).body)]⟩ :=
  rfl

/-- C9 counterexample: when the data file is absent the code takes the
default store silently — no console message at all is emitted, so "the
condition is logged" fails for the absent case. -/
theorem load_absent_logs_nothing :
    load FileState.absent = (defaultStoreJson, []) :=
  rfl

/-- C9 (amended): startup load never throws past startup; an absent file
yields the empty default structure silently, a present-but-malformed
file yields the default with the parse failure logged, and a file that
parses yields exactly the parsed value. -/
theorem load_startup_behavior :
    load FileState.absent = (defaultStoreJson, []) ∧
    load FileState.malformed =
      (defaultStoreJson, ["Error reading careerData.json, starting with empty data:"]) ∧
    (∀ v, load (FileState.parsed v) = (v, ["Loaded existing data from careerData.json"])) :=
  ⟨rfl, rfl, fun _ => rfl⟩

/-- C4: for every `{title, content}` body sent at a moment `now` whose
derived id `doc_<now>` is not already taken, `POST /api/documents`
appends and returns (status 200) a document with that id, exactly one
version holding the submitted content, and `currentVersion = 0`; a
subsequent `GET /api/documents/:docId` with that id returns the same
document. -/
theorem create_document_spec (s : Store) (title content : Json) (now : Nat) (iso : String)
    (h : findDoc s.documents ("doc_" ++ toString now) = none) :
    (createDocument s title content now iso).store.documents =
      s.documents ++ [⟨"doc_" ++ toString now, title, [⟨content, iso⟩], 0⟩] ∧
    (createDocument s title content now iso).response =
      ⟨200, documentToJson ⟨"doc_" ++ toString now, title, [⟨content, iso⟩], 0⟩⟩ ∧
    getDocument (createDocument s title content now iso).store ("doc_" ++ toString now) =
      ⟨200, documentToJson ⟨"doc_" ++ toString now, title, [⟨content, iso⟩], 0⟩⟩ := by
  refine ⟨rfl, rfl, ?_⟩
  have hpre : ∀ d ∈ s.documents, (d.docId == ("doc_" ++ toString now)) = false := by
    intro d hd
    have := List.find?_eq_none.mp h d hd
    simpa using this
  have hfind : findDoc (createDocument s title content now iso).store.documents
      ("doc_" ++ toString now) =
      some ⟨"doc_" ++ toString now, title, [⟨content, iso⟩], 0⟩ := by
    unfold createDocument newDocument findDoc
    exact find?_first _ s.documents _ [] hpre (by simp)
  unfold getDocument
  rw [hfind]

/-- C4 witness at a concrete input. -/
theorem create_document_spec_witness :
    getDocument (createDocument emptyStore (Json.str "T") (Json.str "hello") 5 "t0").store
      "doc_5" =
      ⟨200, documentToJson ⟨"doc_5", Json.str "T", [⟨Json.str "hello", "t0"⟩], 0⟩⟩ :=
  (create_document_spec emptyStore (Json.str "T") (Json.str "hello") 5 "t0" rfl).2.2

theorem commitDocument_found (s : Store) (docId : String) (c : Json) (iso : String)
    (pre post : List Document) (d : Document)
    (hs : s.documents = pre ++ d :: post)
    (hpre : ∀ x ∈ pre, (x.docId == docId) = false)
    (hd : (d.docId == docId) = true) :
    commitDocument s docId c iso =
      ⟨{ s with documents := pre ++ commitVersion c iso d :: post }, true,
        ⟨200, documentToJson (commitVersion c iso d)⟩⟩ := by
  have h1 : findDoc s.documents docId = some d := by
    unfold findDoc
    rw [hs]
    exact find?_first _ pre d post hpre hd
  simp only [commitDocument, h1]
  rw [hs, updateFirst_first _ _ pre d post hpre hd]

theorem commitTimes_found (s : Store) (docId : String) (c : Nat → Json) (ts : Nat → String)
    (pre post : List Document) (d : Document)
    (hs : s.documents = pre ++ d :: post)
    (hpre : ∀ x ∈ pre, (x.docId == docId) = false)
    (hd : (d.docId == docId) = true) :
    ∀ n, (commitTimes s docId c ts n).documents =
      pre ++ (⟨d.docId, d.title,
        d.versions ++ (List.range n).map (fun i => ⟨c i, ts i⟩),
        if n = 0 then d.currentVersion else d.versions.length + n - 1⟩ : Document) :: post := by
  intro n
  induction n with
  | zero =>
    simpa using hs
  | succ n ih =>
    show (commitDocument (commitTimes s docId c ts n) docId (c n) (ts n)).store.documents = _
    rw [commitDocument_found _ docId (c n) (ts n) pre post _ ih hpre (by simpa using hd)]
    simp [commitVersion, List.range_succ]

/-- C3 (amended): committing `n ≥ 1` times to an existing document
yields the document with its original versions followed by the `n`
submitted contents in order (initial count + n versions, nothing removed
or reordered) and `currentVersion` equal to the last index; for `n = 0`
the document is untouched, so its `currentVersion` is whatever it was;
committing to a missing `docId` responds 404 `{error: "Document not
found"}` and changes nothing. -/
theorem commit_n_times_spec (s : Store) (docId : String) (c : Nat → Json) (ts : Nat → String) :
    (∀ pre d post, s.documents = pre ++ d :: post →
      (∀ x ∈ pre, (x.docId == docId) = false) → (d.docId == docId) = true →
      ∀ n, findDoc (commitTimes s docId c ts n).documents docId =
        some ⟨d.docId, d.title,
          d.versions ++ (List.range n).map (fun i => ⟨c i, ts i⟩),
          if n = 0 then d.currentVersion else d.versions.length + n - 1⟩) ∧
    (findDoc s.documents docId = none → ∀ cb isob,
      commitDocument s docId cb isob =
        ⟨s, false, ⟨404, Json.obj [("error", Json.str "Document not found")]⟩⟩) := by
  constructor
  · intro pre d post hs hpre hd n
    have hdocs := commitTimes_found s docId c ts pre post d hs hpre hd n
    unfold findDoc
    rw [hdocs]
    exact find?_first _ pre _ post hpre (by simpa using hd)
  · intro h cb isob
    simp only [commitDocument, h]

/-- C3 counterexample: for `n = 0` and a stored document whose
`currentVersion` does not already point at the last version, executing
the commit endpoint zero times leaves `currentVersion = 7 ≠
versions.length - 1`, so the claim's universal quantification over all
`n` fails at `n = 0`. -/
theorem commit_zero_on_skewed_document_counterexample :
    findDoc (commitTimes ⟨Json.null, [⟨"d1", Json.null, [⟨Json.null, "t0"⟩], 7⟩], []⟩
        "d1" (fun _ => Json.null) (fun _ => "t1") 0).documents "d1" =
      some ⟨"d1", Json.null, [⟨Json.null, "t0"⟩], 7⟩ ∧ (7 : Nat) ≠ 1 - 1 :=
  ⟨rfl, by decide⟩

/-- C3 witness at a concrete input: two commits to a freshly created
document give three versions and `currentVersion = 2`. -/
theorem commit_n_times_spec_witness :
    findDoc (commitTimes ⟨Json.null, [⟨"doc_1", Json.str "T", [⟨Json.str "a", "t0"⟩], 0⟩], []⟩
        "doc_1" (fun _ => Json.str "b") (fun _ => "t1") 2).documents "doc_1" =
      some ⟨"doc_1", Json.str "T",
        [⟨Json.str "a", "t0"⟩, ⟨Json.str "b", "t1"⟩, ⟨Json.str "b", "t1"⟩], 2⟩ := by
  exact (commit_n_times_spec
      ⟨Json.null, [⟨"doc_1", Json.str "T", [⟨Json.str "a", "t0"⟩], 0⟩], []⟩
      "doc_1" (fun _ => Json.str "b") (fun _ => "t1")).1
    [] ⟨"doc_1", Json.str "T", [⟨Json.str "a", "t0"⟩], 0⟩ [] rfl
    (fun x hx => absurd hx (List.not_mem_nil x)) rfl 2

/-- C5 counterexample: a provided-but-falsy field is not kept verbatim —
the body `{title: ""}` yields a stored/returned title of `"Untitled"`,
because the handler applies `||`-defaults, not absence checks. -/
theorem create_issue_empty_title_counterexample :
    (createIssue emptyStore [("title", Json.str "")] 0).response.body =
      Json.obj [("issueId", Json.str "issue_0"), ("title", Json.str "Untitled"),
        ("description", Json.str ""), ("status", Json.str "todo")] ∧
    Json.str "Untitled" ≠ Json.str "" := by
  refine ⟨rfl, ?_⟩
  intro h
  simp at h

/-- C5 (amended): `POST /api/issues` appends and returns (status 200) an
issue with `issueId = "issue_" + now`; `title`, `description` and
`status` default to `"Untitled"`, `""` and `"todo"` whenever the body's
value is absent *or falsy*, and are kept verbatim only when truthy;
provided the derived id is fresh, a subsequent `GET /api/issues`
includes the created issue exactly once. -/
theorem create_issue_spec (s : Store) (body : JsObj) (now : Nat)
    (h : ∀ i ∈ s.issues, issueIdMatches ("issue_" ++ toString now) i = false) :
    (createIssue s body now).response = ⟨200, Json.obj (newIssue body now)⟩ ∧
    (createIssue s body now).store.issues = s.issues ++ [newIssue body now] ∧
    objLookup (newIssue body now) "issueId" =
      some (Json.str ("issue_" ++ toString now)) ∧
    (∀ v, objLookup body "title" = some v → truthy v = true →
      objLookup (newIssue body now) "title" = some v) ∧
    (∀ v, objLookup body "title" = some v → truthy v = false →
      objLookup (newIssue body now) "title" = some (Json.str "Untitled")) ∧
    (objLookup body "title" = none →
      objLookup (newIssue body now) "title" = some (Json.str "Untitled")) ∧
    (∀ v, objLookup body "description" = some v → truthy v = true →
      objLookup (newIssue body now) "description" = some v) ∧
    (∀ v, objLookup body "description" = some v → truthy v = false →
      objLookup (newIssue body now) "description" = some (Json.str "")) ∧
    (objLookup body "description" = none →
      objLookup (newIssue body now) "description" = some (Json.str "")) ∧
    (∀ v, objLookup body "status" = some v → truthy v = true →
      objLookup (newIssue body now) "status" = some v) ∧
    (∀ v, objLookup body "status" = some v → truthy v = false →
      objLookup (newIssue body now) "status" = some (Json.str "todo")) ∧
    (objLookup body "status" = none →
      objLookup (newIssue body now) "status" = some (Json.str "todo")) ∧
    (createIssue s body now).store.issues.filter
      (issueIdMatches ("issue_" ++ toString now)) = [newIssue body now] := by
  have etitle : objLookup (newIssue body now) "title" =
      jsOr (objLookup body "title") (Json.str "Untitled") := rfl
  have edesc : objLookup (newIssue body now) "description" =
      jsOr (objLookup body "description") (Json.str "") := rfl
  have estatus : objLookup (newIssue body now) "status" =
      jsOr (objLookup body "status") (Json.str "todo") := rfl
  refine ⟨rfl, rfl, rfl, ?_, ?_, ?_, ?_, ?_, ?_, ?_, ?_, ?_, ?_⟩
  · intro v hv ht
    rw [etitle, hv]
    simp [jsOr, ht]
  · intro v hv ht
    rw [etitle, hv]
    simp [jsOr, ht]
  · intro hv
    rw [etitle, hv]
    rfl
  · intro v hv ht
    rw [edesc, hv]
    simp [jsOr, ht]
  · intro v hv ht
    rw [edesc, hv]
    simp [jsOr, ht]
  · intro hv
    rw [edesc, hv]
    rfl
  · intro v hv ht
    rw [estatus, hv]
    simp [jsOr, ht]
  · intro v hv ht
    rw [estatus, hv]
    simp [jsOr, ht]
  · intro hv
    rw [estatus, hv]
    rfl
  · show (s.issues ++ [newIssue body now]).filter _ = _
    rw [List.filter_append]
    have h1 : s.issues.filter (issueIdMatches ("issue_" ++ toString now)) = [] := by
      rw [List.filter_eq_nil_iff]
      intro a ha
      simp [h a ha]
    have h2 : issueIdMatches ("issue_" ++ toString now) (newIssue body now) = true := by
      simp [issueIdMatches, newIssue, objLookup, List.find?]
    rw [h1, List.filter_cons, h2]
    rfl

/-- C5 witness at a concrete input: a fresh issue created from
`{title: "Fix"}` appears in the issue list exactly once. -/
theorem create_issue_spec_witness :
    (createIssue emptyStore [("title", Json.str "Fix")] 3).store.issues.filter
      (issueIdMatches "issue_3") =
      [[("issueId", Json.str "issue_3"), ("title", Json.str "Fix"),
        ("description", Json.str ""), ("status", Json.str "todo")]] := by
  exact (create_issue_spec emptyStore [("title", Json.str "Fix")] 3
    (fun i hi => absurd hi (List.not_mem_nil i))).2.2.2.2.2.2.2.2.2.2.2.2

/-- C6 counterexample: with two stored issues carrying the same
`issueId` (reachable, e.g., through `PUT`'s unchecked `issueId`
overwrite or millisecond id collisions), a successful `DELETE` of that
id leaves a second issue with the id, and the immediately following
`DELETE` of the same id succeeds with 200 instead of returning 404. -/
theorem delete_issue_twice_counterexample :
    (deleteIssue ⟨Json.null, [], [[("issueId", Json.str "a"), ("title", Json.str "x")],
        [("issueId", Json.str "a"), ("title", Json.str "y")]]⟩ "a").response.status = 200 ∧
    (deleteIssue (deleteIssue ⟨Json.null, [],
        [[("issueId", Json.str "a"), ("title", Json.str "x")],
         [("issueId", Json.str "a"), ("title", Json.str "y")]]⟩ "a").store
      "a").response.status = 200 ∧ (200 : Nat) ≠ 404 :=
  ⟨rfl, rfl, by decide⟩

/-- C6 (amended): `DELETE /api/issues/:issueId` removes exactly the
first issue with that id, leaving all others unchanged and in order, and
responds `{success: true, removed: [issue]}`; on a store with no issue
of that id — in particular immediately after a successful delete of the
*only* issue bearing it — it responds 404 `{error: "Issue not found"}`
and leaves the store unchanged without persisting. -/
theorem delete_issue_spec (s : Store) (id : String) :
    (∀ pre i post, s.issues = pre ++ i :: post →
      (∀ j ∈ pre, issueIdMatches id j = false) → issueIdMatches id i = true →
      deleteIssue s id =
        ⟨{ s with issues := pre ++ post }, true,
          ⟨200, Json.obj [("success", Json.bool true),
            ("removed", Json.arr [Json.obj i])]⟩⟩) ∧
    ((∀ j ∈ s.issues, issueIdMatches id j = false) →
      deleteIssue s id = ⟨s, false, ⟨404, Json.obj [("error", Json.str "Issue not found")]⟩⟩) ∧
    (∀ pre i post, s.issues = pre ++ i :: post →
      (∀ j ∈ pre, issueIdMatches id j = false) → issueIdMatches id i = true →
      (∀ j ∈ post, issueIdMatches id j = false) →
      (deleteIssue (deleteIssue s id).store id).response =
        ⟨404, Json.obj [("error", Json.str "Issue not found")]⟩) := by
  refine ⟨?_, ?_, ?_⟩
  · intro pre i post hs hpre hi
    unfold deleteIssue
    rw [hs, spliceFirst_first _ pre i post hpre hi]
  · intro h
    unfold deleteIssue
    rw [spliceFirst_eq_none_of_all _ _ h]
  · intro pre i post hs hpre hi hpost
    have h1 : deleteIssue s id =
        ⟨{ s with issues := pre ++ post }, true,
          ⟨200, Json.obj [("success", Json.bool true),
            ("removed", Json.arr [Json.obj i])]⟩⟩ := by
      unfold deleteIssue
      rw [hs, spliceFirst_first _ pre i post hpre hi]
    rw [h1]
    have h2 : ∀ j ∈ pre ++ post, issueIdMatches id j = false := by
      intro j hj
      rcases List.mem_append.mp hj with hj | hj
      · exact hpre j hj
      · exact hpost j hj
    unfold deleteIssue
    rw [spliceFirst_eq_none_of_all _ _ h2]

/-- C6 witness at a concrete input: deleting the only issue with id
`issue_1` removes it, returns it in `removed`, and a second delete of
the same id responds 404. -/
theorem delete_issue_spec_witness :
    deleteIssue ⟨Json.null, [], [[("issueId", Json.str "issue_1")],
        [("issueId", Json.str "issue_2")]]⟩ "issue_1" =
      ⟨⟨Json.null, [], [[("issueId", Json.str "issue_2")]]⟩, true,
        ⟨200, Json.obj [("success", Json.bool true),
          ("removed", Json.arr [Json.obj [("issueId", Json.str "issue_1")]])]⟩⟩ ∧
    (deleteIssue (deleteIssue ⟨Json.null, [], [[("issueId", Json.str "issue_1")],
        [("issueId", Json.str "issue_2")]]⟩ "issue_1").store "issue_1").response =
      ⟨404, Json.obj [("error", Json.str "Issue not found")]⟩ := by
  constructor
  · exact (delete_issue_spec ⟨Json.null, [], [[("issueId", Json.str "issue_1")],
        [("issueId", Json.str "issue_2")]]⟩ "issue_1").1
      [] [("issueId", Json.str "issue_1")] [[("issueId", Json.str "issue_2")]]
      rfl (fun j hj => absurd hj (List.not_mem_nil j)) rfl
  · exact (delete_issue_spec ⟨Json.null, [], [[("issueId", Json.str "issue_1")],
        [("issueId", Json.str "issue_2")]]⟩ "issue_1").2.2
      [] [("issueId", Json.str "issue_1")] [[("issueId", Json.str "issue_2")]]
      rfl (fun j hj => absurd hj (List.not_mem_nil j)) rfl
      (by intro j hj; simp at hj; subst hj; rfl)

/-- C7: a `PUT /api/issues/:issueId` whose id matches no stored issue
responds 404 `{error: "Issue not found"}` and returns the store exactly
unchanged without persisting, for every request body. -/
theorem put_issue_missing_spec (s : Store) (id : String) (body : JsObj)
    (h : ∀ i ∈ s.issues, issueIdMatches id i = false) :
    putIssue s id body =
      ⟨s, false, ⟨404, Json.obj [("error", Json.str "Issue not found")]⟩⟩ := by
  unfold putIssue
  rw [find?_eq_none_of_all _ _ h]

/-- C7 witness at a concrete input. -/
theorem put_issue_missing_spec_witness :
    putIssue ⟨Json.null, [], [[("issueId", Json.str "b")]]⟩ "a"
        [("status", Json.str "done")] =
      ⟨⟨Json.null, [], [[("issueId", Json.str "b")]]⟩, false,
        ⟨404, Json.obj [("error", Json.str "Issue not found")]⟩⟩ :=
  put_issue_missing_spec ⟨Json.null, [], [[("issueId", Json.str "b")]]⟩ "a"
    [("status", Json.str "done")]
    (by intro i hi; simp at hi; subst hi; rfl)

/-- C8: the `PUT /api/issues/:issueId` shallow-merge protects no field:
every key of the (duplicate-free, as JSON parsing guarantees) request
body overwrites the stored issue's field verbatim — including `issueId`
and arbitrary `status` values — and if the body rebinds `issueId` to a
fresh id, subsequent `PUT`/`DELETE` requests addressed to the original
id return 404 while the merged issue stays in the list under the new
id. -/
theorem put_issue_merge_spec (s : Store) (id : String) (body : JsObj)
    (pre post : List JsObj) (i : JsObj)
    (hs : s.issues = pre ++ i :: post)
    (hpre : ∀ j ∈ pre, issueIdMatches id j = false)
    (hi : issueIdMatches id i = true)
    (hnd : (body.map Prod.fst).Nodup) :
    putIssue s id body =
      ⟨{ s with issues := pre ++ objAssign i body :: post }, true,
        ⟨200, Json.obj (objAssign i body)⟩⟩ ∧
    (∀ k v, (k, v) ∈ body → objLookup (objAssign i body) k = some v) ∧
    (∀ nid, ("issueId", Json.str nid) ∈ body → nid ≠ id →
      (∀ j ∈ post, issueIdMatches id j = false) →
      issueIdMatches nid (objAssign i body) = true ∧
      objAssign i body ∈ (putIssue s id body).store.issues ∧
      (∀ body2, putIssue (putIssue s id body).store id body2 =
        ⟨(putIssue s id body).store, false,
          ⟨404, Json.obj [("error", Json.str "Issue not found")]⟩⟩) ∧
      (deleteIssue (putIssue s id body).store id).response =
        ⟨404, Json.obj [("error", Json.str "Issue not found")]⟩) := by
  have hf : s.issues.find? (issueIdMatches id) = some i := by
    rw [hs]
    exact find?_first _ pre i post hpre hi
  have h1 : putIssue s id body =
      ⟨{ s with issues := pre ++ objAssign i body :: post }, true,
        ⟨200, Json.obj (objAssign i body)⟩⟩ := by
    simp only [putIssue, hf]
    rw [hs, updateFirst_first _ _ pre i post hpre hi]
  refine ⟨h1, ?_, ?_⟩
  · intro k v hkv
    exact objLookup_objAssign_mem body i k v hnd hkv
  · intro nid hmem hne hpost
    have hlook : objLookup (objAssign i body) "issueId" = some (Json.str nid) :=
      objLookup_objAssign_mem body i _ _ hnd hmem
    have hmerged : issueIdMatches id (objAssign i body) = false := by
      simp [issueIdMatches, hlook, hne]
    have hall : ∀ j ∈ pre ++ objAssign i body :: post, issueIdMatches id j = false := by
      intro j hj
      rcases List.mem_append.mp hj with hj | hj
      · exact hpre j hj
      · rcases List.mem_cons.mp hj with hj | hj
        · exact hj ▸ hmerged
        · exact hpost j hj
    refine ⟨by simp [issueIdMatches, hlook], ?_, ?_, ?_⟩
    · rw [h1]
      exact List.mem_append_right _ (List.mem_cons_self _ _)
    · intro body2
      rw [h1]
      simp only [putIssue]
      rw [find?_eq_none_of_all _ _ hall]
    · rw [h1]
      simp only [deleteIssue]
      rw [spliceFirst_eq_none_of_all _ _ hall]

/-- C8 witness at a concrete input: merging `{issueId: "b"}` into the
only issue `"a"` rebinds its identifier, and a subsequent `PUT` to
`"a"` returns 404. -/
theorem put_issue_merge_spec_witness :
    putIssue ⟨Json.null, [], [[("issueId", Json.str "a"), ("status", Json.str "todo")]]⟩
        "a" [("issueId", Json.str "b")] =
      ⟨⟨Json.null, [], [[("issueId", Json.str "b"), ("status", Json.str "todo")]]⟩, true,
        ⟨200, Json.obj [("issueId", Json.str "b"), ("status", Json.str "todo")]⟩⟩ ∧
    putIssue (putIssue ⟨Json.null, [],
          [[("issueId", Json.str "a"), ("status", Json.str "todo")]]⟩
        "a" [("issueId", Json.str "b")]).store "a" [("status", Json.str "done")] =
      ⟨(putIssue ⟨Json.null, [], [[("issueId", Json.str "a"), ("status", Json.str "todo")]]⟩
          "a" [("issueId", Json.str "b")]).store, false,
        ⟨404, Json.obj [("error", Json.str "Issue not found")]⟩⟩ := by
  have h := put_issue_merge_spec
    ⟨Json.null, [], [[("issueId", Json.str "a"), ("status", Json.str "todo")]]⟩
    "a" [("issueId", Json.str "b")] [] []
    [("issueId", Json.str "a"), ("status", Json.str "todo")]
    rfl (fun j hj => absurd hj (List.not_mem_nil j)) rfl (by simp)
  exact ⟨h.1, (h.2.2 "b" (List.mem_cons_self _ _) (by decide)
    (fun j hj => absurd hj (List.not_mem_nil j))).2.2.1 [("status", Json.str "done")]⟩

/-- C10: the client link-editing selection state machine — a non-shift
click changes nothing; from Idle a shift-click selects the node; from
Pending a shift-click on the same node deselects with the graph
unchanged; on a different node it returns to Idle after toggling the
link: it removes the first existing link between the two nodes (in
either direction) if one exists, else appends `{source: selected id,
target: clicked id}`. -/
theorem click_state_machine (st : SelState) (d : GNode) :
    (clickNode false d st = st) ∧
    (st.selectedNode = none → clickNode true d st = ⟨some d, st.links⟩) ∧
    (∀ sel, st.selectedNode = some sel → sel.id = d.id →
      clickNode true d st = ⟨none, st.links⟩) ∧
    (∀ sel pre l post, st.selectedNode = some sel → sel.id ≠ d.id →
      st.links = pre ++ l :: post →
      (∀ x ∈ pre, linkBetween sel.id d.id x = false) →
      linkBetween sel.id d.id l = true →
      clickNode true d st = ⟨none, pre ++ post⟩) ∧
    (∀ sel, st.selectedNode = some sel → sel.id ≠ d.id →
      (∀ x ∈ st.links, linkBetween sel.id d.id x = false) →
      clickNode true d st = ⟨none, st.links ++ [⟨sel.id, d.id⟩]⟩) := by
  obtain ⟨sn, links⟩ := st
  refine ⟨rfl, ?_, ?_, ?_, ?_⟩
  · intro h
    subst h
    rfl
  · intro sel h heq
    subst h
    simp [clickNode, heq]
  · intro sel pre l post h hne hlinks hpreA hl
    subst h
    subst hlinks
    have hb : (sel.id == d.id) = false := by simp [hne]
    have hfind := find?_first _ pre l post hpreA hl
    have herase := eraseP_first _ pre l post hpreA hl
    simp only [clickNode, if_true, hb, hfind, herase]
    simp
  · intro sel h hne hall
    subst h
    have hb : (sel.id == d.id) = false := by simp [hne]
    have hfind := find?_eq_none_of_all _ links hall
    simp only [clickNode, if_true, hb, hfind]
    simp

/-- C10 witness at a concrete input: with node `a` pending, a
shift-click on node `b` (no existing link) adds the link `a → b` and
clears the selection. -/
theorem click_state_machine_witness :
    clickNode true ⟨"b", "B"⟩ ⟨some ⟨"a", "A"⟩, []⟩ = ⟨none, [⟨"a", "b"⟩]⟩ :=
  (click_state_machine ⟨some ⟨"a", "A"⟩, []⟩ ⟨"b", "B"⟩).2.2.2.2 ⟨"a", "A"⟩ rfl
    (by decide) (fun x hx => absurd hx (List.not_mem_nil x))

end AndreOS
